import Mathlib

/-!
Shallow embedding of the Game-of-Life engine in `src/lib.rs` of
`wasm-game-of-life` (the `Cell` enum and the `Universe` struct with its
methods), together with theorems checking the natural-language specification
against it.

Machine arithmetic: the Rust code runs on the `wasm32` target, where `u32`
and `usize` are both 32 bits wide and release builds use wrapping
arithmetic, so every arithmetic step is taken modulo `2^32`.  Operations
that can panic (indexing a `Vec` out of bounds, `%` by zero, `chunks(0)`)
are modelled as `Option`-valued functions returning `none` at the panic.
-/

/-- The modulus of 32-bit machine arithmetic (`u32` / `usize` on wasm32). -/
def U32MOD : Nat := 4294967296

/-- The `Cell` enum: `#[repr(u8)] enum Cell { Dead = 0, Alive = 1 }`. -/
inductive Cell where
  | Dead : Cell
  | Alive : Cell
deriving DecidableEq, Repr

/-- `Cell::toggle`: flip a cell between `Dead` and `Alive`. -/
def Cell.toggle : Cell → Cell
  | Cell.Dead => Cell.Alive
  | Cell.Alive => Cell.Dead

/-- `cell as u8` (`Dead = 0`, `Alive = 1`), as used by `count += self.cells[idx] as u8`. -/
def Cell.toNat : Cell → Nat
  | Cell.Dead => 0
  | Cell.Alive => 1

/-- The `Universe` struct: width and height (`u32` values) and the flat
row-major cell vector. -/
structure Universe where
  width : Nat
  height : Nat
  cells : List Cell
deriving DecidableEq, Repr

/-- Left fold with a fallible body: models a Rust `for` loop whose body can
panic (`none` aborts the whole loop). -/
def ofoldl {α β : Type} (f : β → α → Option β) : β → List α → Option β
  | b, [] => some b
  | b, a :: l => (f b a).bind fun c => ofoldl f c l

/-- Remainder that fails on a zero divisor, as Rust `%` does (panic on `% 0`). -/
def cmod (a b : Nat) : Option Nat :=
  if b = 0 then none else some (a % b)

/-- 32-bit wrapping decrement: `x - 1` on `u32` in a release build. -/
def wdec (a : Nat) : Nat := (a + (U32MOD - 1)) % U32MOD

/-- `Universe::get_index`: `(row * self.width + column) as usize`, in
wrapping `u32` arithmetic (no bounds check). -/
def Universe.get_index (u : Universe) (row column : Nat) : Nat :=
  (row * u.width + column) % U32MOD

/-- The nine `(delta_row, delta_col)` pairs of `live_neighbor_count`, in
iteration order: `delta_row` ranges over `[self.height - 1, 0, 1]` and
`delta_col` over `[self.width - 1, 0, 1]`. -/
def Universe.neighborDeltas (u : Universe) : List (Nat × Nat) :=
  [(wdec u.height, wdec u.width), (wdec u.height, 0), (wdec u.height, 1),
   (0, wdec u.width), (0, 0), (0, 1),
   (1, wdec u.width), (1, 0), (1, 1)]

/-- Body of the `live_neighbor_count` loop for one delta pair: skip `(0, 0)`,
otherwise wrap the coordinates (`(row + delta) % height`, with the sum first
wrapping as `u32`), read the cell, and add it to the count. -/
def Universe.neighborStep (u : Universe) (row column : Nat) (count : Nat)
    (d : Nat × Nat) : Option Nat :=
  if d.1 = 0 ∧ d.2 = 0 then some count
  else
    (cmod ((row + d.1) % U32MOD) u.height).bind fun nr =>
    (cmod ((column + d.2) % U32MOD) u.width).bind fun nc =>
    (u.cells[u.get_index nr nc]?).bind fun c =>
    some (count + c.toNat)

/-- `Universe::live_neighbor_count`. -/
def Universe.live_neighbor_count (u : Universe) (row column : Nat) : Option Nat :=
  ofoldl (u.neighborStep row column) 0 u.neighborDeltas

/-- The `match (cell, live_neighbors)` inside `Universe::tick`, arm by arm. -/
def next_cell (cell : Cell) (live_neighbors : Nat) : Cell :=
  if cell = Cell.Alive ∧ live_neighbors < 2 then Cell.Dead
  else if cell = Cell.Alive ∧ (live_neighbors = 2 ∨ live_neighbors = 3) then Cell.Alive
  else if cell = Cell.Alive ∧ 3 < live_neighbors then Cell.Dead
  else if cell = Cell.Dead ∧ live_neighbors = 3 then Cell.Alive
  else cell

/-- Row-major traversal order of `for row in 0..h { for col in 0..w { .. } }`. -/
def rowMajor (h w : Nat) : List (Nat × Nat) :=
  (List.range h).flatMap fun row => (List.range w).map fun col => (row, col)

/-- Body of `tick`'s inner loop at `(row, col)`: read `self.cells[idx]`,
count live neighbors from the pre-tick state, and write `next[idx]`. -/
def Universe.tickStep (u : Universe) (next : List Cell) (rc : Nat × Nat) :
    Option (List Cell) :=
  let idx := u.get_index rc.1 rc.2
  (u.cells[idx]?).bind fun cell =>
  (u.live_neighbor_count rc.1 rc.2).bind fun live_neighbors =>
  if idx < next.length then some (next.set idx (next_cell cell live_neighbors))
  else none

/-- `Universe::tick`: clone the cell buffer, sweep all cells reading only the
pre-tick state, then replace `self.cells` with the new buffer. -/
def Universe.tick (u : Universe) : Option Universe :=
  (ofoldl u.tickStep u.cells (rowMajor u.height u.width)).map fun next =>
    { u with cells := next }

/-- `Universe::clear_grid`: set every existing cell to `Dead`. -/
def Universe.clear_grid (u : Universe) : Universe :=
  { u with cells := u.cells.map fun _ => Cell.Dead }

/-- The `usize` index written by `set_cells` for the offset pair
`(col, row)`: `idx + middle` where `idx = get_index(row, col)` and
`middle = self.width * (self.height / 2) + self.width / 2`, every step in
wrapping 32-bit arithmetic. -/
def Universe.targetIdx (u : Universe) (p : Nat × Nat) : Nat :=
  (u.get_index p.2 p.1 +
    ((u.width * (u.height / 2)) % U32MOD + u.width / 2) % U32MOD) % U32MOD

/-- `Universe::set_cells`: clear the grid, then for each `(col, row)` pair
write `Alive` at the centered target index (panicking when it falls outside
the buffer). -/
def Universe.set_cells (u : Universe) (cs : List (Nat × Nat)) : Option Universe :=
  let u0 := u.clear_grid
  (ofoldl (fun cur p =>
      let j := u0.targetIdx p
      if j < cur.length then some (cur.set j Cell.Alive) else none)
    u0.cells cs).map fun cells => { u0 with cells := cells }

/-- The `SPACESHIP` constant. -/
def SPACESHIP : List (Nat × Nat) :=
  [(0, 0), (1, 0), (2, 0), (3, 0), (0, 1), (4, 1), (0, 2), (1, 3), (4, 3)]

/-- The `RPENTOMINO` constant. -/
def RPENTOMINO : List (Nat × Nat) :=
  [(0, 0), (0, 1), (1, 1), (2, 1), (1, 2)]

/-- The `PIHEPTOMINO` constant. -/
def PIHEPTOMINO : List (Nat × Nat) :=
  [(0, 0), (1, 0), (2, 0), (0, 1), (2, 1), (0, 2), (2, 2)]

/-- The `GLIDER` constant. -/
def GLIDER : List (Nat × Nat) :=
  [(1, 2), (2, 3), (3, 1), (3, 2), (3, 3)]

/-- `Universe::make_spaceship`: `clear_grid` then `set_cells(SPACESHIP)`. -/
def Universe.make_spaceship (u : Universe) : Option Universe :=
  u.clear_grid.set_cells SPACESHIP

/-- `Universe::make_rpentamino`: `set_cells(RPENTOMINO)` with the
`clear_grid` call commented out in the source. -/
def Universe.make_rpentamino (u : Universe) : Option Universe :=
  u.set_cells RPENTOMINO

/-- `Universe::make_piheptomino`: `clear_grid` then `set_cells(PIHEPTOMINO)`. -/
def Universe.make_piheptomino (u : Universe) : Option Universe :=
  u.clear_grid.set_cells PIHEPTOMINO

/-- `Universe::make_glider`: `clear_grid` then `set_cells(GLIDER)`. -/
def Universe.make_glider (u : Universe) : Option Universe :=
  u.clear_grid.set_cells GLIDER

/-- `Universe::toggle_cell`: toggle `self.cells[get_index(row, column)]`,
panicking when the unchecked index falls outside the buffer. -/
def Universe.toggle_cell (u : Universe) (row column : Nat) : Option Universe :=
  let idx := u.get_index row column
  (u.cells[idx]?).map fun c => { u with cells := u.cells.set idx c.toggle }

/-- `Universe::set_width`: replace `cells` with `(0..width * self.height)`
entries, all `Dead`. -/
def Universe.set_width (u : Universe) (width : Nat) : Universe :=
  { u with width := width,
           cells := (List.range ((width * u.height) % U32MOD)).map fun _ => Cell.Dead }

/-- `Universe::set_height`: replace `cells` with `(0..self.width * height)`
entries, all `Dead`. -/
def Universe.set_height (u : Universe) (height : Nat) : Universe :=
  { u with height := height,
           cells := (List.range ((u.width * height) % U32MOD)).map fun _ => Cell.Dead }

/-- `Universe::set_dimensions`: set both dimensions, then replace `cells`
with `(0..self.width * height)` entries, all `Dead` (`self.width` reads the
freshly assigned width). -/
def Universe.set_dimensions (_u : Universe) (width height : Nat) : Universe :=
  { width := width, height := height,
    cells := (List.range ((width * height) % U32MOD)).map fun _ => Cell.Dead }

/-- `Universe::new`: a fresh `width * height` buffer, each entry produced by
one call of the populate source (the host's `Math.random` draw per index,
abstracted as an oracle). -/
def Universe.new (w h : Nat) (populate : Nat → Cell) : Universe :=
  { width := w, height := h,
    cells := (List.range ((w * h) % U32MOD)).map populate }

/-- Rust's slice `chunks`: successive pieces of `w` elements (last may be
shorter); `chunks(0)` asserts, which the caller models as `none`. -/
def chunksOf (w : Nat) (l : List Cell) : List (List Cell) :=
  if w = 0 then []
  else if l.isEmpty then []
  else l.take w :: chunksOf w (l.drop w)
termination_by l.length
decreasing_by
  simp_all [List.isEmpty_iff, List.length_drop]
  cases l with
  | nil => simp_all
  | cons a t => simp; omega

/-- The `fmt::Display` impl behind `Universe::render`: one glyph per cell,
each `width`-sized row followed by `writeln!(f, "\n")`; `chunks(0)` panics
when `width = 0`. -/
def Universe.render (u : Universe) : Option String :=
  if u.width = 0 then none
  else some (String.join ((chunksOf u.width u.cells).map fun line =>
    String.mk (line.map fun c => if c = Cell.Dead then '◻' else '◼') ++ "\n\n"))

/-- The data-model invariant: `cells.length == width * height`. -/
def Universe.wf (u : Universe) : Prop :=
  u.cells.length = u.width * u.height

instance Universe.wfDecidable (u : Universe) : Decidable u.wf :=
  inferInstanceAs (Decidable (u.cells.length = u.width * u.height))

/-- An all-`Dead` `w × h` universe, used as a concrete sample input. -/
def deadGrid (w h : Nat) : Universe :=
  ⟨w, h, List.replicate (w * h) Cell.Dead⟩

/-- An 8×8 universe whose cell `(0, 0)` is `Alive` and all others `Dead`,
used as a concrete sample input. -/
def cornerAliveGrid : Universe :=
  ⟨8, 8, Cell.Alive :: List.replicate 63 Cell.Dead⟩

/-- The row-major buffer of a `W × H` grid whose only live cells form the
2×2 block with corners `(r, c)` and `(r+1, c+1)`. -/
def blockCells (W H r c : Nat) : List Cell :=
  (List.range (W * H)).map fun k =>
    if (k / W = r ∨ k / W = r + 1) ∧ (k % W = c ∨ k % W = c + 1) then Cell.Alive
    else Cell.Dead

/-- A `W × H` universe holding exactly a 2×2 block of live cells at
rows `r, r+1` and columns `c, c+1`. -/
def blockUniverse (W H r c : Nat) : Universe :=
  ⟨W, H, blockCells W H r c⟩

/-- The summand `live_neighbor_count` adds for the delta pair `(dr, dc)` at
`(row, col)` when every lookup is in range: the wrapped neighbor cell as a
0/1 count. -/
def nbrAt (u : Universe) (row col dr dc : Nat) : Nat :=
  (u.cells.getD
    ((row + dr) % U32MOD % u.height * u.width + (col + dc) % U32MOD % u.width)
    Cell.Dead).toNat

/-! ### Generic lemmas about the fallible fold -/

theorem ofoldl_nil {α β : Type} (f : β → α → Option β) (b : β) :
    ofoldl f b [] = some b := rfl

theorem ofoldl_cons {α β : Type} (f : β → α → Option β) (b : β) (a : α) (l : List α) :
    ofoldl f b (a :: l) = (f b a).bind fun c => ofoldl f c l := rfl

theorem ofoldl_append {α β : Type} (f : β → α → Option β) (b : β) (l1 l2 : List α) :
    ofoldl f b (l1 ++ l2) = (ofoldl f b l1).bind fun c => ofoldl f c l2 := by
  induction l1 generalizing b with
  | nil => simp [ofoldl]
  | cons a t ih =>
    simp only [List.cons_append, ofoldl_cons]
    cases f b a with
    | none => simp
    | some c => simp [ih]

theorem ofoldl_some {α β : Type} {P : β → Prop} {f : β → α → Option β} {l : List α}
    {b : β} (hb : P b)
    (hstep : ∀ c a, a ∈ l → P c → ∃ d, f c a = some d ∧ P d) :
    ∃ res, ofoldl f b l = some res ∧ P res := by
  induction l generalizing b with
  | nil => exact ⟨b, rfl, hb⟩
  | cons a t ih =>
    obtain ⟨c, hc, hPc⟩ := hstep b a (by simp) hb
    obtain ⟨res, hres, hPres⟩ := ih hPc fun c a ha hP => hstep c a (by simp [ha]) hP
    exact ⟨res, by simp [ofoldl_cons, hc, hres], hPres⟩

theorem ofoldl_pres {α β : Type} {P : β → Prop} {f : β → α → Option β} {l : List α} :
    ∀ {b res : β}, P b →
      (∀ c a d, a ∈ l → P c → f c a = some d → P d) →
      ofoldl f b l = some res → P res := by
  induction l with
  | nil => intro b res hb _ h; cases h; exact hb
  | cons a t ih =>
    intro b res hb hstep h
    rw [ofoldl_cons] at h
    cases hfa : f b a with
    | none => rw [hfa] at h; cases h
    | some c =>
      rw [hfa] at h
      exact ih (hstep b a c (by simp) hb hfa)
        (fun c a d ha hP he => hstep c a d (by simp [ha]) hP he) h

/-! ### Arithmetic helpers -/

theorem cmod_of_ne {a b : Nat} (h : b ≠ 0) : cmod a b = some (a % b) := by
  simp [cmod, h]

theorem wdec_eq {a : Nat} (h1 : 1 ≤ a) (h2 : a ≤ U32MOD) : wdec a = a - 1 := by
  simp only [wdec, U32MOD] at *
  omega

theorem rowcol_lt {w h r c : Nat} (hr : r < h) (hc : c < w) : r * w + c < w * h := by
  calc r * w + c < r * w + w := by omega
    _ = (r + 1) * w := by ring
    _ ≤ h * w := Nat.mul_le_mul_right w hr
    _ = w * h := Nat.mul_comm h w

theorem Universe.get_index_eq {u : Universe} {row col : Nat}
    (hm : u.width * u.height < U32MOD) (hrow : row < u.height) (hcol : col < u.width) :
    u.get_index row col = row * u.width + col := by
  have h1 : row * u.width + col < u.width * u.height := rowcol_lt hrow hcol
  simp only [get_index, U32MOD] at *
  omega

theorem Universe.get_index_lt {u : Universe} {row col : Nat} (hwf : u.wf)
    (hrow : row < u.height) (hcol : col < u.width) :
    u.get_index row col < u.cells.length := by
  have h1 : row * u.width + col < u.width * u.height := rowcol_lt hrow hcol
  have h2 : u.get_index row col ≤ row * u.width + col := Nat.mod_le _ _
  rw [hwf]
  omega

/-! ### Basic lemmas about `clear_grid` -/

theorem Universe.clear_grid_width (u : Universe) : u.clear_grid.width = u.width := rfl

theorem Universe.clear_grid_height (u : Universe) : u.clear_grid.height = u.height := rfl

theorem Universe.clear_grid_length (u : Universe) :
    u.clear_grid.cells.length = u.cells.length := by
  simp [clear_grid]

theorem Universe.clear_grid_getElem (u : Universe) (k : Nat) (hk : k < u.cells.length) :
    u.clear_grid.cells[k]? = some Cell.Dead := by
  simp [clear_grid, List.getElem?_replicate, hk]

theorem Universe.clear_grid_clear_grid (u : Universe) :
    u.clear_grid.clear_grid = u.clear_grid := by
  simp [clear_grid]

/-! ### Success of `live_neighbor_count` -/

theorem Universe.lnc_isSome {u : Universe} (hwf : u.wf) (hh : 1 ≤ u.height)
    (hw : 1 ≤ u.width) (row col : Nat) :
    ∃ n, u.live_neighbor_count row col = some n := by
  unfold live_neighbor_count
  have hstep : ∀ (c : Nat) (d : Nat × Nat), d ∈ u.neighborDeltas → True →
      ∃ e, u.neighborStep row col c d = some e ∧ True := by
    intro c d _ _
    unfold Universe.neighborStep
    by_cases hskip : d.1 = 0 ∧ d.2 = 0
    · exact ⟨c, by rw [if_pos hskip], trivial⟩
    · rw [if_neg hskip, cmod_of_ne (by omega), cmod_of_ne (by omega)]
      simp only [Option.some_bind]
      have hidx : u.get_index ((row + d.1) % U32MOD % u.height)
          ((col + d.2) % U32MOD % u.width) < u.cells.length :=
        u.get_index_lt hwf (Nat.mod_lt _ (by omega)) (Nat.mod_lt _ (by omega))
      rw [List.getElem?_eq_getElem hidx]
      exact ⟨_, rfl, trivial⟩
  obtain ⟨n, hn, -⟩ := ofoldl_some (P := fun _ => True) trivial hstep
  exact ⟨n, hn⟩

/-! ### The `tick` sweep, row by row -/

theorem rowMajor_zero (w : Nat) : rowMajor 0 w = [] := rfl

theorem rowMajor_succ (h w : Nat) :
    rowMajor (h + 1) w = rowMajor h w ++ ((List.range w).map fun col => (h, col)) := by
  simp [rowMajor, List.range_succ]

theorem Universe.tick_inner {u : Universe} (hwf : u.wf)
    (hm : u.width * u.height < U32MOD) (hh : 1 ≤ u.height) (hw : 1 ≤ u.width)
    {row : Nat} (hrow : row < u.height) :
    ∀ j, j ≤ u.width → ∀ next : List Cell, next.length = u.cells.length →
      ∃ res, ofoldl u.tickStep next ((List.range j).map fun col => (row, col)) = some res ∧
        res.length = u.cells.length ∧
        (∀ col, col < j → ∃ c n, u.cells[row * u.width + col]? = some c ∧
            u.live_neighbor_count row col = some n ∧
            res[row * u.width + col]? = some (next_cell c n)) ∧
        (∀ k, k < row * u.width ∨ row * u.width + j ≤ k → res[k]? = next[k]?) := by
  intro j
  induction j with
  | zero =>
    intro _ next hnext
    exact ⟨next, rfl, hnext, fun col hcol => absurd hcol (by omega), fun k _ => rfl⟩
  | succ j ih =>
    intro hj next hnext
    obtain ⟨res1, hres1, hlen1, hdone1, hout1⟩ := ih (by omega) next hnext
    have hcolj : j < u.width := by omega
    have hidx_eq : u.get_index row j = row * u.width + j := u.get_index_eq hm hrow hcolj
    have hidx_lt : row * u.width + j < u.cells.length := by
      have h1 := rowcol_lt hrow hcolj
      have h2 : u.cells.length = u.width * u.height := hwf
      omega
    obtain ⟨n, hn⟩ := u.lnc_isSome hwf hh hw row j
    obtain ⟨cell, hcell⟩ : ∃ cell, u.cells[row * u.width + j]? = some cell :=
      ⟨_, List.getElem?_eq_getElem hidx_lt⟩
    have hstep : u.tickStep res1 (row, j) =
        some (res1.set (row * u.width + j) (next_cell cell n)) := by
      simp only [Universe.tickStep, hidx_eq, hcell, Option.some_bind, hn, hlen1]
      rw [if_pos hidx_lt]
    refine ⟨res1.set (row * u.width + j) (next_cell cell n), ?_, ?_, ?_, ?_⟩
    · rw [List.range_succ, List.map_append, ofoldl_append, hres1]
      simp only [Option.some_bind, List.map_cons, List.map_nil, ofoldl_cons, hstep,
        ofoldl_nil, Option.some_bind]
    · simp [hlen1]
    · intro col hcol
      by_cases hc : col = j
      · subst hc
        refine ⟨cell, n, hcell, hn, ?_⟩
        rw [List.getElem?_set]
        rw [if_pos rfl, if_pos (by omega)]
      · have hcol' : col < j := by omega
        obtain ⟨c, n', hcn, hn', hres⟩ := hdone1 col hcol'
        refine ⟨c, n', hcn, hn', ?_⟩
        rw [List.getElem?_set, if_neg (by omega)]
        exact hres
    · intro k hk
      rw [List.getElem?_set, if_neg (by omega)]
      exact hout1 k (by omega)

theorem Universe.tick_outer {u : Universe} (hwf : u.wf)
    (hm : u.width * u.height < U32MOD) (hh : 1 ≤ u.height) (hw : 1 ≤ u.width) :
    ∀ m, m ≤ u.height →
      ∃ res, ofoldl u.tickStep u.cells (rowMajor m u.width) = some res ∧
        res.length = u.cells.length ∧
        (∀ row col, row < m → col < u.width →
          ∃ c n, u.cells[row * u.width + col]? = some c ∧
            u.live_neighbor_count row col = some n ∧
            res[row * u.width + col]? = some (next_cell c n)) ∧
        (∀ k, m * u.width ≤ k → res[k]? = u.cells[k]?) := by
  intro m
  induction m with
  | zero =>
    exact fun _ => ⟨u.cells, rfl, rfl,
      fun row col hrow _ => absurd hrow (by omega), fun k _ => rfl⟩
  | succ m ih =>
    intro hm1
    obtain ⟨res1, hres1, hlen1, hdone1, hout1⟩ := ih (by omega)
    have hrowm : m < u.height := by omega
    obtain ⟨res2, hres2, hlen2, hdone2, hout2⟩ :=
      u.tick_inner hwf hm hh hw hrowm u.width (le_refl _) res1 hlen1
    refine ⟨res2, ?_, hlen2, ?_, ?_⟩
    · rw [rowMajor_succ, ofoldl_append, hres1, Option.some_bind, hres2]
    · intro row col hrow hcol
      by_cases hr : row = m
      · subst hr
        exact hdone2 col hcol
      · have hrow' : row < m := by omega
        obtain ⟨c, n, hcn, hn, hres⟩ := hdone1 row col hrow' hcol
        refine ⟨c, n, hcn, hn, ?_⟩
        have hlt : row * u.width + col < m * u.width := by
          have h2 : (row + 1) * u.width = row * u.width + u.width := by ring
          have h3 : (row + 1) * u.width ≤ m * u.width :=
            Nat.mul_le_mul_right u.width (by omega)
          omega
        rw [hout2 _ (Or.inl hlt)]
        exact hres
    · intro k hk
      have h1 : m * u.width + u.width ≤ k := by
        have : (m + 1) * u.width = m * u.width + u.width := by ring
        omega
      rw [hout2 k (Or.inr h1)]
      exact hout1 k (by omega)

/-- Claim C1: for every grid with `width ≥ 1` and `height ≥ 1` satisfying the
row-major invariant (with 32-bit-representable size), `tick()` succeeds and
replaces the cell buffer with one of the same length in which the cell at
every `(row, col)` is determined solely by the pre-tick state: it equals
`next_cell` (the `match` of `tick`: Alive with count `< 2` dies, Alive with
count 2 or 3 survives, Alive with count `> 3` dies, Dead with count exactly 3
becomes Alive, anything else keeps its state) applied to the pre-tick cell
and the pre-tick `live_neighbor_count` — the update is simultaneous. -/
theorem C1_tick_rule (u : Universe) (hw : 1 ≤ u.width) (hh : 1 ≤ u.height)
    (hwf : u.cells.length = u.width * u.height) (hm : u.width * u.height < U32MOD) :
    ∃ v, u.tick = some v ∧ v.width = u.width ∧ v.height = u.height ∧
      v.cells.length = u.cells.length ∧
      ∀ row col, row < u.height → col < u.width →
        ∃ c n, u.cells[u.get_index row col]? = some c ∧
          u.live_neighbor_count row col = some n ∧
          v.cells[u.get_index row col]? = some (next_cell c n) := by
  obtain ⟨res, hres, hlen, hdone, -⟩ := u.tick_outer hwf hm hh hw u.height (le_refl _)
  refine ⟨{ u with cells := res }, ?_, rfl, rfl, hlen, ?_⟩
  · unfold Universe.tick
    rw [hres]
    rfl
  · intro row col hrow hcol
    obtain ⟨c, n, hc, hn, hv⟩ := hdone row col hrow hcol
    exact ⟨c, n, by rw [u.get_index_eq hm hrow hcol]; exact hc, hn,
      by rw [u.get_index_eq hm hrow hcol]; exact hv⟩

/-- Witness for C1 at the all-dead 2×2 grid. -/
theorem C1_tick_rule_witness :
    ∃ v, (deadGrid 2 2).tick = some v ∧ v.width = (deadGrid 2 2).width ∧
      v.height = (deadGrid 2 2).height ∧ v.cells.length = (deadGrid 2 2).cells.length ∧
      ∀ row col, row < (deadGrid 2 2).height → col < (deadGrid 2 2).width →
        ∃ c n, (deadGrid 2 2).cells[(deadGrid 2 2).get_index row col]? = some c ∧
          (deadGrid 2 2).live_neighbor_count row col = some n ∧
          v.cells[(deadGrid 2 2).get_index row col]? = some (next_cell c n) :=
  C1_tick_rule (deadGrid 2 2) (by decide) (by decide) (by decide) (by decide)

/-! ### The `set_cells` write loop -/

theorem ofoldl_setAlive (tgt : Nat × Nat → Nat) (cs : List (Nat × Nat)) :
    ∀ cur : List Cell, (∀ p ∈ cs, tgt p < cur.length) →
      ∃ res, ofoldl (fun cur p =>
          if tgt p < cur.length then some (cur.set (tgt p) Cell.Alive) else none) cur cs
            = some res ∧
        res.length = cur.length ∧
        ∀ k, res[k]? = if ∃ p ∈ cs, k = tgt p then some Cell.Alive else cur[k]? := by
  induction cs with
  | nil =>
    intro cur _
    refine ⟨cur, rfl, rfl, fun k => ?_⟩
    rw [if_neg]
    rintro ⟨p, hp, -⟩
    exact absurd hp (List.not_mem_nil p)
  | cons p t ih =>
    intro cur hin
    have hp : tgt p < cur.length := hin p (by simp)
    obtain ⟨res, hres, hlen, hchar⟩ := ih (cur.set (tgt p) Cell.Alive)
      (fun q hq => by rw [List.length_set]; exact hin q (by simp [hq]))
    refine ⟨res, ?_, by rw [hlen, List.length_set], fun k => ?_⟩
    · rw [ofoldl_cons, if_pos hp, Option.some_bind, hres]
    · rw [hchar k]
      by_cases ht : ∃ q ∈ t, k = tgt q
      · rw [if_pos ht, if_pos]
        obtain ⟨q, hq, hk⟩ := ht
        exact ⟨q, by simp [hq], hk⟩
      · rw [if_neg ht]
        by_cases hk : k = tgt p
        · subst hk
          rw [if_pos ⟨p, by simp, rfl⟩, List.getElem?_set, if_pos rfl, if_pos hp]
        · rw [List.getElem?_set, if_neg (fun h => hk h.symm), if_neg]
          rintro ⟨q, hq, he⟩
          rcases List.mem_cons.mp hq with h | h
          · exact hk (by rw [he, h])
          · exact ht ⟨q, h, he⟩

theorem Universe.clear_grid_targetIdx (u : Universe) (p : Nat × Nat) :
    u.clear_grid.targetIdx p = u.targetIdx p := rfl

theorem Universe.clear_grid_getElem_all (u : Universe) (k : Nat) :
    u.clear_grid.cells[k]? = if k < u.cells.length then some Cell.Dead else none := by
  by_cases hk : k < u.cells.length
  · rw [if_pos hk]
    exact u.clear_grid_getElem k hk
  · rw [if_neg hk]
    exact List.getElem?_eq_none (by rw [u.clear_grid_length]; omega)

theorem Universe.set_cells_spec (u : Universe) (cs : List (Nat × Nat))
    (hin : ∀ p ∈ cs, u.targetIdx p < u.cells.length) :
    ∃ v, u.set_cells cs = some v ∧ v.width = u.width ∧ v.height = u.height ∧
      v.cells.length = u.cells.length ∧
      ∀ k, v.cells[k]? = if ∃ p ∈ cs, k = u.targetIdx p then some Cell.Alive
        else u.clear_grid.cells[k]? := by
  obtain ⟨res, hres, hlen, hchar⟩ := ofoldl_setAlive u.clear_grid.targetIdx cs
    u.clear_grid.cells
    (fun p hp => by
      rw [u.clear_grid_targetIdx, u.clear_grid_length]
      exact hin p hp)
  refine ⟨{ u.clear_grid with cells := res }, ?_, rfl, rfl, ?_, fun k => ?_⟩
  · simp only [Universe.set_cells]
    rw [hres]
    rfl
  · rw [hlen, u.clear_grid_length]
  · rw [hchar k]
    simp only [u.clear_grid_targetIdx]

theorem Universe.set_cells_clear_grid (u : Universe) (cs : List (Nat × Nat)) :
    u.clear_grid.set_cells cs = u.set_cells cs := by
  unfold Universe.set_cells
  rw [Universe.clear_grid_clear_grid]

theorem Universe.targetIdx_eq {u : Universe} {p : Nat × Nat}
    (hwf : u.cells.length = u.width * u.height) (hm : u.width * u.height < U32MOD)
    (ht : (u.height / 2 + p.2) * u.width + (u.width / 2 + p.1) < u.cells.length) :
    u.targetIdx p = (u.height / 2 + p.2) * u.width + (u.width / 2 + p.1) := by
  have e1 : (u.height / 2 + p.2) * u.width + (u.width / 2 + p.1)
      = (p.2 * u.width + p.1) + (u.width * (u.height / 2) + u.width / 2) := by ring
  simp only [Universe.targetIdx, Universe.get_index, U32MOD] at *
  omega

theorem Universe.targetIdx_congr {u v : Universe} (h1 : v.width = u.width)
    (h2 : v.height = u.height) (p : Nat × Nat) : v.targetIdx p = u.targetIdx p := by
  simp only [Universe.targetIdx, Universe.get_index, h1, h2]

theorem Universe.eq_of {u v : Universe} (h1 : u.width = v.width)
    (h2 : u.height = v.height) (h3 : u.cells = v.cells) : u = v := by
  cases u
  cases v
  simp_all

/-- Claim C5: for every grid (row-major invariant, 32-bit-representable
size) and every offset list whose translated targets are in bounds,
`set_cells(offsets)` succeeds, keeps the dimensions, first sets every cell
to `Dead`, and then sets exactly the cells at flat index
`((height/2) + row) * width + ((width/2) + column)` (integer division) to
`Alive`, one per `(column, row)` pair. -/
theorem C5_set_cells_centered (u : Universe) (cs : List (Nat × Nat))
    (hwf : u.cells.length = u.width * u.height) (hm : u.width * u.height < U32MOD)
    (hin : ∀ p ∈ cs, (u.height / 2 + p.2) * u.width + (u.width / 2 + p.1) < u.cells.length) :
    ∃ v, u.set_cells cs = some v ∧ v.width = u.width ∧ v.height = u.height ∧
      v.cells.length = u.cells.length ∧
      ∀ k, k < u.cells.length →
        v.cells[k]? = some (if ∃ p ∈ cs, k = (u.height / 2 + p.2) * u.width + (u.width / 2 + p.1)
          then Cell.Alive else Cell.Dead) := by
  have htgt : ∀ p ∈ cs, u.targetIdx p = (u.height / 2 + p.2) * u.width + (u.width / 2 + p.1) :=
    fun p hp => Universe.targetIdx_eq hwf hm (hin p hp)
  have hin2 : ∀ p ∈ cs, u.targetIdx p < u.cells.length := fun p hp => by
    rw [htgt p hp]
    exact hin p hp
  obtain ⟨v, hv, hW, hH, hlen, hchar⟩ := u.set_cells_spec cs hin2
  refine ⟨v, hv, hW, hH, hlen, fun k hk => ?_⟩
  rw [hchar k]
  have hiff : (∃ p ∈ cs, k = u.targetIdx p) ↔
      (∃ p ∈ cs, k = (u.height / 2 + p.2) * u.width + (u.width / 2 + p.1)) := by
    constructor
    · rintro ⟨p, hp, he⟩
      exact ⟨p, hp, by rw [he, htgt p hp]⟩
    · rintro ⟨p, hp, he⟩
      exact ⟨p, hp, by rw [he, htgt p hp]⟩
  by_cases hex : ∃ p ∈ cs, k = (u.height / 2 + p.2) * u.width + (u.width / 2 + p.1)
  · rw [if_pos (hiff.mpr hex), if_pos hex]
  · rw [if_neg (fun h => hex (hiff.mp h)), if_neg hex, u.clear_grid_getElem k hk]

/-- Witness for C5: the spec's own concrete scenario, a 6×6 grid and the
L-triomino offset set. -/
theorem C5_set_cells_centered_witness :
    ∃ v, (deadGrid 6 6).set_cells [(1, 0), (2, 0), (0, 1)] = some v ∧
      v.width = (deadGrid 6 6).width ∧ v.height = (deadGrid 6 6).height ∧
      v.cells.length = (deadGrid 6 6).cells.length ∧
      ∀ k, k < (deadGrid 6 6).cells.length →
        v.cells[k]? = some (if ∃ p ∈ [((1: Nat), (0 : Nat)), (2, 0), (0, 1)],
            k = ((deadGrid 6 6).height / 2 + p.2) * (deadGrid 6 6).width
              + ((deadGrid 6 6).width / 2 + p.1)
          then Cell.Alive else Cell.Dead) :=
  C5_set_cells_centered (deadGrid 6 6) [(1, 0), (2, 0), (0, 1)]
    (by decide) (by decide) (by decide)

/-- Counterexample for C2: on an 8×8 grid whose cell `(0, 0)` is `Alive`,
index 0 is none of the five translated R-pentomino targets, yet after
`make_rpentamino()` that cell reads `Dead` — the placement wiped it, because
`set_cells` itself clears the grid first. -/
theorem C2_counterexample :
    cornerAliveGrid.cells[0]? = some Cell.Alive ∧
    (∀ p ∈ RPENTOMINO, cornerAliveGrid.targetIdx p ≠ 0) ∧
    cornerAliveGrid.make_rpentamino.bind (fun v => v.cells[0]?) = some Cell.Dead := by
  decide

/-- Claim C2 (amended): `make_rpentamino()` differs from the other pattern
constructors only by omitting a redundant extra `clear_grid` call; since
`set_cells` itself clears the grid first, the placement is not additive:
`make_rpentamino` equals the clear-then-place pipeline, and afterwards every
in-range cell that is not one of the five translated R-pentomino targets is
`Dead`, whatever was there before. -/
theorem C2_rpentomino_clears (u : Universe)
    (hwf : u.cells.length = u.width * u.height) (hm : u.width * u.height < U32MOD)
    (hin : ∀ p ∈ RPENTOMINO,
      (u.height / 2 + p.2) * u.width + (u.width / 2 + p.1) < u.cells.length) :
    u.make_rpentamino = u.clear_grid.set_cells RPENTOMINO ∧
    ∃ v, u.make_rpentamino = some v ∧
      ∀ k, k < u.cells.length →
        (¬ ∃ p ∈ RPENTOMINO, k = (u.height / 2 + p.2) * u.width + (u.width / 2 + p.1)) →
        v.cells[k]? = some Cell.Dead := by
  refine ⟨(u.set_cells_clear_grid RPENTOMINO).symm, ?_⟩
  have htgt : ∀ p ∈ RPENTOMINO,
      u.targetIdx p = (u.height / 2 + p.2) * u.width + (u.width / 2 + p.1) :=
    fun p hp => Universe.targetIdx_eq hwf hm (hin p hp)
  have hin2 : ∀ p ∈ RPENTOMINO, u.targetIdx p < u.cells.length := fun p hp => by
    rw [htgt p hp]
    exact hin p hp
  obtain ⟨v, hv, hW, hH, hlen, hchar⟩ := u.set_cells_spec RPENTOMINO hin2
  refine ⟨v, hv, fun k hk hnot => ?_⟩
  rw [hchar k, if_neg, u.clear_grid_getElem k hk]
  rintro ⟨p, hp, he⟩
  exact hnot ⟨p, hp, he.trans (htgt p hp)⟩

/-- Witness for the amended C2 at the corner-alive 8×8 grid. -/
theorem C2_rpentomino_clears_witness :
    cornerAliveGrid.make_rpentamino = cornerAliveGrid.clear_grid.set_cells RPENTOMINO ∧
    ∃ v, cornerAliveGrid.make_rpentamino = some v ∧
      ∀ k, k < cornerAliveGrid.cells.length →
        (¬ ∃ p ∈ RPENTOMINO, k = (cornerAliveGrid.height / 2 + p.2) * cornerAliveGrid.width
          + (cornerAliveGrid.width / 2 + p.1)) →
        v.cells[k]? = some Cell.Dead :=
  C2_rpentomino_clears cornerAliveGrid (by decide) (by decide) (by decide)

/-- Claim C9: for every grid whose five translated glider targets all fall
inside the buffer, `make_glider()` twice yields exactly the final grid of
`make_glider()` once, whatever the grid held before the first call. -/
theorem C9_make_glider_idempotent (u : Universe)
    (hin : ∀ p ∈ GLIDER, u.targetIdx p < u.cells.length) :
    ∃ v, u.make_glider = some v ∧ v.make_glider = some v := by
  obtain ⟨v, hv, hW, hH, hlen, hchar⟩ := u.set_cells_spec GLIDER hin
  have hmg : u.make_glider = some v := by
    show u.clear_grid.set_cells GLIDER = some v
    rw [u.set_cells_clear_grid GLIDER]
    exact hv
  have hinv : ∀ p ∈ GLIDER, v.targetIdx p < v.cells.length := fun p hp => by
    rw [Universe.targetIdx_congr hW hH p, hlen]
    exact hin p hp
  obtain ⟨v2, hv2, hW2, hH2, hlen2, hchar2⟩ := v.set_cells_spec GLIDER hinv
  have hcells : v2.cells = v.cells := by
    refine List.ext_getElem? fun k => ?_
    rw [hchar2 k, hchar k]
    have hcond : (∃ p ∈ GLIDER, k = v.targetIdx p) ↔ (∃ p ∈ GLIDER, k = u.targetIdx p) := by
      constructor
      · rintro ⟨p, hp, he⟩
        exact ⟨p, hp, he.trans (Universe.targetIdx_congr hW hH p)⟩
      · rintro ⟨p, hp, he⟩
        exact ⟨p, hp, he.trans (Universe.targetIdx_congr hW hH p).symm⟩
    by_cases hex : ∃ p ∈ GLIDER, k = u.targetIdx p
    · rw [if_pos (hcond.mpr hex), if_pos hex]
    · rw [if_neg (fun h => hex (hcond.mp h)), if_neg hex,
        v.clear_grid_getElem_all k, u.clear_grid_getElem_all k, hlen]
  have hveq : v2 = v := Universe.eq_of hW2 hH2 hcells
  refine ⟨v, hmg, ?_⟩
  show v.clear_grid.set_cells GLIDER = some v
  rw [v.set_cells_clear_grid GLIDER, hv2, hveq]

/-- Witness for C9 at the all-dead 8×8 grid. -/
theorem C9_make_glider_idempotent_witness :
    ∃ v, (deadGrid 8 8).make_glider = some v ∧ v.make_glider = some v :=
  C9_make_glider_idempotent (deadGrid 8 8) (by decide)

/-! ### Preservation of the invariant -/

theorem mem_rowMajor {h w : Nat} {rc : Nat × Nat} (hm : rc ∈ rowMajor h w) :
    rc.1 < h ∧ rc.2 < w := by
  simp only [rowMajor, List.mem_flatMap, List.mem_map, List.mem_range] at hm
  obtain ⟨row, hrow, col, hcol, he⟩ := hm
  subst he
  exact ⟨hrow, hcol⟩

theorem Universe.tick_wf (u : Universe) (hwf : u.wf) : ∃ v, u.tick = some v ∧ v.wf := by
  have hstep : ∀ (next : List Cell) (rc : Nat × Nat), rc ∈ rowMajor u.height u.width →
      next.length = u.cells.length →
      ∃ nx, u.tickStep next rc = some nx ∧ nx.length = u.cells.length := by
    intro next rc hrc hlen
    obtain ⟨hr, hc⟩ := mem_rowMajor hrc
    have hidx : u.get_index rc.1 rc.2 < u.cells.length := u.get_index_lt hwf hr hc
    obtain ⟨n, hn⟩ := u.lnc_isSome hwf (by omega) (by omega) rc.1 rc.2
    obtain ⟨c, hcell⟩ : ∃ c, u.cells[u.get_index rc.1 rc.2]? = some c :=
      ⟨_, List.getElem?_eq_getElem hidx⟩
    refine ⟨next.set (u.get_index rc.1 rc.2) (next_cell c n), ?_,
      by rw [List.length_set]; exact hlen⟩
    simp only [Universe.tickStep, hcell, Option.some_bind, hn]
    rw [if_pos (by omega)]
  obtain ⟨res, hres, hreslen⟩ :=
    ofoldl_some (P := fun nx : List Cell => nx.length = u.cells.length) rfl hstep
  refine ⟨{ u with cells := res }, ?_, ?_⟩
  · unfold Universe.tick
    rw [hres]
    rfl
  · show res.length = u.width * u.height
    rw [hreslen]
    exact hwf

theorem Universe.toggle_cell_eq {u : Universe} {row col : Nat} {c : Cell}
    (hc : u.cells[u.get_index row col]? = some c) :
    u.toggle_cell row col
      = some { u with cells := u.cells.set (u.get_index row col) c.toggle } := by
  simp only [Universe.toggle_cell, hc, Option.map_some']

theorem Universe.set_cells_wf {u v : Universe} {cs : List (Nat × Nat)}
    (h : u.set_cells cs = some v) (hwf : u.wf) : v.wf := by
  simp only [Universe.set_cells, Option.map_eq_some'] at h
  obtain ⟨res, hres, hv⟩ := h
  have hlen : res.length = u.clear_grid.cells.length := by
    refine ofoldl_pres (P := fun cur : List Cell => cur.length = u.clear_grid.cells.length)
      rfl ?_ hres
    intro c p d _ hP he
    by_cases hc : u.clear_grid.targetIdx p < c.length
    · rw [if_pos hc] at he
      cases he
      rw [List.length_set]
      exact hP
    · rw [if_neg hc] at he
      cases he
  subst hv
  show res.length = u.width * u.height
  rw [hlen, u.clear_grid_length]
  exact hwf

theorem Universe.clear_grid_wf (u : Universe) (hwf : u.wf) : u.clear_grid.wf := by
  show u.clear_grid.cells.length = u.width * u.height
  rw [u.clear_grid_length]
  exact hwf

theorem Universe.set_width_length (u : Universe) (w2 : Nat) :
    (u.set_width w2).cells.length = (w2 * u.height) % U32MOD := by
  simp [Universe.set_width]

theorem Universe.set_height_length (u : Universe) (h2 : Nat) :
    (u.set_height h2).cells.length = (u.width * h2) % U32MOD := by
  simp [Universe.set_height]

theorem Universe.set_dimensions_length (u : Universe) (w2 h2 : Nat) :
    (u.set_dimensions w2 h2).cells.length = (w2 * h2) % U32MOD := by
  simp [Universe.set_dimensions]

/-- Claim C4: the invariant `cells.length = width * height` holds after
construction and is preserved by every operation: `new` (for a
32-bit-representable size), `tick`, in-range `toggle_cell`, successful
`set_cells`, `clear_grid`, every successful `make_*`, and
`set_width` / `set_height` / `set_dimensions`, each of which reallocates the
buffer to the new product in the same operation. -/
theorem C4_invariant :
    (∀ (w h : Nat) (populate : Nat → Cell), w * h < U32MOD →
      (Universe.new w h populate).wf) ∧
    (∀ u : Universe, u.wf → ∃ v, u.tick = some v ∧ v.wf) ∧
    (∀ (u : Universe) (row col : Nat), u.wf → row < u.height → col < u.width →
      ∃ v, u.toggle_cell row col = some v ∧ v.wf) ∧
    (∀ (u v : Universe) (cs : List (Nat × Nat)), u.wf → u.set_cells cs = some v → v.wf) ∧
    (∀ u : Universe, u.wf → u.clear_grid.wf) ∧
    (∀ u v : Universe, u.wf → u.make_spaceship = some v → v.wf) ∧
    (∀ u v : Universe, u.wf → u.make_rpentamino = some v → v.wf) ∧
    (∀ u v : Universe, u.wf → u.make_piheptomino = some v → v.wf) ∧
    (∀ u v : Universe, u.wf → u.make_glider = some v → v.wf) ∧
    (∀ (u : Universe) (w2 : Nat), w2 * u.height < U32MOD → (u.set_width w2).wf) ∧
    (∀ (u : Universe) (h2 : Nat), u.width * h2 < U32MOD → (u.set_height h2).wf) ∧
    (∀ (u : Universe) (w2 h2 : Nat), w2 * h2 < U32MOD → (u.set_dimensions w2 h2).wf) := by
  refine ⟨?_, Universe.tick_wf, ?_, ?_, Universe.clear_grid_wf, ?_, ?_, ?_, ?_, ?_, ?_, ?_⟩
  · intro w h populate hm
    show ((List.range ((w * h) % U32MOD)).map populate).length = w * h
    rw [List.length_map, List.length_range]
    exact Nat.mod_eq_of_lt hm
  · intro u row col hwf hrow hcol
    have hidx : u.get_index row col < u.cells.length := u.get_index_lt hwf hrow hcol
    obtain ⟨c, hcell⟩ : ∃ c, u.cells[u.get_index row col]? = some c :=
      ⟨_, List.getElem?_eq_getElem hidx⟩
    refine ⟨_, Universe.toggle_cell_eq hcell, ?_⟩
    show (u.cells.set _ _).length = u.width * u.height
    rw [List.length_set]
    exact hwf
  · intro u v cs hwf h
    exact Universe.set_cells_wf h hwf
  · intro u v hwf h
    exact Universe.set_cells_wf h (u.clear_grid_wf hwf)
  · intro u v hwf h
    exact Universe.set_cells_wf h hwf
  · intro u v hwf h
    exact Universe.set_cells_wf h (u.clear_grid_wf hwf)
  · intro u v hwf h
    exact Universe.set_cells_wf h (u.clear_grid_wf hwf)
  · intro u w2 hm
    show (u.set_width w2).cells.length = w2 * u.height
    rw [u.set_width_length]
    exact Nat.mod_eq_of_lt hm
  · intro u h2 hm
    show (u.set_height h2).cells.length = u.width * h2
    rw [u.set_height_length]
    exact Nat.mod_eq_of_lt hm
  · intro u w2 h2 hm
    show (u.set_dimensions w2 h2).cells.length = w2 * h2
    rw [u.set_dimensions_length]
    exact Nat.mod_eq_of_lt hm

/-- Witness for C4: each conjunct applied at a concrete instance. -/
theorem C4_invariant_witness :
    (Universe.new 3 2 (fun _ => Cell.Alive)).wf ∧
    (∃ v, (deadGrid 3 2).tick = some v ∧ v.wf) ∧
    (∃ v, (deadGrid 3 2).toggle_cell 1 2 = some v ∧ v.wf) ∧
    (⟨2, 2, [Cell.Dead, Cell.Dead, Cell.Dead, Cell.Alive]⟩ : Universe).wf ∧
    (deadGrid 3 2).clear_grid.wf ∧
    (⟨9, 9, (List.range 81).map fun k =>
      if k = 40 ∨ k = 41 ∨ k = 42 ∨ k = 43 ∨ k = 49 ∨ k = 53 ∨ k = 58 ∨ k = 68 ∨ k = 71
      then Cell.Alive else Cell.Dead⟩ : Universe).wf ∧
    (⟨5, 5, (List.range 25).map fun k =>
      if k = 12 ∨ k = 17 ∨ k = 18 ∨ k = 19 ∨ k = 23
      then Cell.Alive else Cell.Dead⟩ : Universe).wf ∧
    (⟨5, 5, (List.range 25).map fun k =>
      if k = 12 ∨ k = 13 ∨ k = 14 ∨ k = 17 ∨ k = 19 ∨ k = 22 ∨ k = 24
      then Cell.Alive else Cell.Dead⟩ : Universe).wf ∧
    (⟨8, 8, (List.range 64).map fun k =>
      if k = 47 ∨ k = 53 ∨ k = 55 ∨ k = 62 ∨ k = 63
      then Cell.Alive else Cell.Dead⟩ : Universe).wf ∧
    ((deadGrid 3 2).set_width 4).wf ∧
    ((deadGrid 3 2).set_height 5).wf ∧
    ((deadGrid 3 2).set_dimensions 4 5).wf := by
  obtain ⟨h1, h2, h3, h4, h5, h6, h7, h8, h9, h10, h11, h12⟩ := C4_invariant
  exact ⟨h1 3 2 (fun _ => Cell.Alive) (by decide),
    h2 (deadGrid 3 2) (by decide),
    h3 (deadGrid 3 2) 1 2 (by decide) (by decide) (by decide),
    h4 (deadGrid 2 2) _ [(0, 0)] (by decide) (by decide),
    h5 (deadGrid 3 2) (by decide),
    h6 (deadGrid 9 9) _ (by decide) (by decide),
    h7 (deadGrid 5 5) _ (by decide) (by decide),
    h8 (deadGrid 5 5) _ (by decide) (by decide),
    h9 (deadGrid 8 8) _ (by decide) (by decide),
    h10 (deadGrid 3 2) 4 (by decide),
    h11 (deadGrid 3 2) 5 (by decide),
    h12 (deadGrid 3 2) 4 5 (by decide)⟩

/-- Claim C6: after `set_dimensions(w2, h2)` — and likewise after
`set_width(w2)` or `set_height(h2)` — on any previously populated grid,
every cell in the buffer reads `Dead` and the buffer length equals the new
`width * height` product (32-bit-representable); prior content is discarded
entirely — a full reset, not a crop or pad. -/
theorem C6_resize_resets :
    (∀ (u : Universe) (w2 h2 : Nat), w2 * h2 < U32MOD →
      (u.set_dimensions w2 h2).cells.length = w2 * h2 ∧
      (u.set_dimensions w2 h2).width = w2 ∧ (u.set_dimensions w2 h2).height = h2 ∧
      ∀ c ∈ (u.set_dimensions w2 h2).cells, c = Cell.Dead) ∧
    (∀ (u : Universe) (w2 : Nat), w2 * u.height < U32MOD →
      (u.set_width w2).cells.length = w2 * u.height ∧
      (u.set_width w2).width = w2 ∧ (u.set_width w2).height = u.height ∧
      ∀ c ∈ (u.set_width w2).cells, c = Cell.Dead) ∧
    (∀ (u : Universe) (h2 : Nat), u.width * h2 < U32MOD →
      (u.set_height h2).cells.length = u.width * h2 ∧
      (u.set_height h2).width = u.width ∧ (u.set_height h2).height = h2 ∧
      ∀ c ∈ (u.set_height h2).cells, c = Cell.Dead) := by
  refine ⟨fun u w2 h2 hm => ⟨?_, rfl, rfl, ?_⟩, fun u w2 hm => ⟨?_, rfl, rfl, ?_⟩,
    fun u h2 hm => ⟨?_, rfl, rfl, ?_⟩⟩
  · rw [u.set_dimensions_length]
    exact Nat.mod_eq_of_lt hm
  · intro c hc
    simp only [Universe.set_dimensions, List.mem_map] at hc
    obtain ⟨a, -, he⟩ := hc
    exact he.symm
  · rw [u.set_width_length]
    exact Nat.mod_eq_of_lt hm
  · intro c hc
    simp only [Universe.set_width, List.mem_map] at hc
    obtain ⟨a, -, he⟩ := hc
    exact he.symm
  · rw [u.set_height_length]
    exact Nat.mod_eq_of_lt hm
  · intro c hc
    simp only [Universe.set_height, List.mem_map] at hc
    obtain ⟨a, -, he⟩ := hc
    exact he.symm

/-- Witness for C6 at a populated 3×2 grid. -/
theorem C6_resize_resets_witness :
    ((cornerAliveGrid.set_dimensions 4 5).cells.length = 4 * 5 ∧
      (cornerAliveGrid.set_dimensions 4 5).width = 4 ∧
      (cornerAliveGrid.set_dimensions 4 5).height = 5 ∧
      ∀ c ∈ (cornerAliveGrid.set_dimensions 4 5).cells, c = Cell.Dead) ∧
    ((cornerAliveGrid.set_width 3).cells.length = 3 * cornerAliveGrid.height ∧
      (cornerAliveGrid.set_width 3).width = 3 ∧
      (cornerAliveGrid.set_width 3).height = cornerAliveGrid.height ∧
      ∀ c ∈ (cornerAliveGrid.set_width 3).cells, c = Cell.Dead) ∧
    ((cornerAliveGrid.set_height 2).cells.length = cornerAliveGrid.width * 2 ∧
      (cornerAliveGrid.set_height 2).width = cornerAliveGrid.width ∧
      (cornerAliveGrid.set_height 2).height = 2 ∧
      ∀ c ∈ (cornerAliveGrid.set_height 2).cells, c = Cell.Dead) := by
  obtain ⟨h1, h2, h3⟩ := C6_resize_resets
  exact ⟨h1 cornerAliveGrid 4 5 (by decide), h2 cornerAliveGrid 3 (by decide),
    h3 cornerAliveGrid 2 (by decide)⟩

/-- Claim C10: an out-of-range column aliases an in-bounds cell instead of
failing: whenever `column ≥ width` but `row * width + column` still falls
inside the `width * height` buffer, `toggle_cell(row, column)` succeeds, flips
exactly the cell at flat index `row * width + column` (a cell of a later row),
and leaves every other cell and both dimensions unchanged — there is no
bounds check on `(row, column)` at the public interface. -/
theorem C10_toggle_aliasing (u : Universe) (row col : Nat)
    (hwf : u.cells.length = u.width * u.height) (hm : u.width * u.height < U32MOD)
    (hcol : u.width ≤ col) (hidx : row * u.width + col < u.width * u.height) :
    ∃ v, u.toggle_cell row col = some v ∧ v.width = u.width ∧ v.height = u.height ∧
      v.cells.length = u.cells.length ∧
      (∃ c, u.cells[row * u.width + col]? = some c ∧
        v.cells[row * u.width + col]? = some c.toggle) ∧
      ∀ k, k ≠ row * u.width + col → v.cells[k]? = u.cells[k]? := by
  have hie : u.get_index row col = row * u.width + col := by
    simp only [Universe.get_index, U32MOD] at *
    omega
  have hlt : row * u.width + col < u.cells.length := by omega
  obtain ⟨c, hc⟩ : ∃ c, u.cells[row * u.width + col]? = some c :=
    ⟨_, List.getElem?_eq_getElem hlt⟩
  refine ⟨{ u with cells := u.cells.set (row * u.width + col) c.toggle },
    ?_, rfl, rfl, ?_, ⟨c, hc, ?_⟩, ?_⟩
  · have he := Universe.toggle_cell_eq (c := c) (by rw [hie]; exact hc)
    rw [hie] at he
    exact he
  · show (u.cells.set _ _).length = u.cells.length
    rw [List.length_set]
  · show (u.cells.set _ _)[row * u.width + col]? = some c.toggle
    rw [List.getElem?_set, if_pos rfl, if_pos hlt]
  · intro k hk
    show (u.cells.set _ _)[k]? = u.cells[k]?
    rw [List.getElem?_set, if_neg (fun h => hk h.symm)]

/-- Witness for C10: toggling `(1, 5)` on an all-dead 4×4 grid flips the cell
at flat index 9, i.e. `(2, 1)`. -/
theorem C10_toggle_aliasing_witness :
    ∃ v, (deadGrid 4 4).toggle_cell 1 5 = some v ∧ v.width = (deadGrid 4 4).width ∧
      v.height = (deadGrid 4 4).height ∧
      v.cells.length = (deadGrid 4 4).cells.length ∧
      (∃ c, (deadGrid 4 4).cells[1 * (deadGrid 4 4).width + 5]? = some c ∧
        v.cells[1 * (deadGrid 4 4).width + 5]? = some c.toggle) ∧
      ∀ k, k ≠ 1 * (deadGrid 4 4).width + 5 → v.cells[k]? = (deadGrid 4 4).cells[k]? :=
  C10_toggle_aliasing (deadGrid 4 4) 1 5 (by decide) (by decide) (by decide) (by decide)

/-- Claim C3 evaluated on degenerate grids: the code has no guard for a zero
dimension.  `live_neighbor_count` reaches a remainder by zero (a Rust panic)
on a 0-height or 0-width grid, `make_glider` indexes an empty buffer, and
`render` hits the `chunks(0)` assertion when `width = 0`; only `tick` (whose
loops run zero times) behaves as the claimed no-op. -/
theorem C3_degenerate_failures :
    Universe.live_neighbor_count ⟨3, 0, []⟩ 0 0 = none ∧
    Universe.live_neighbor_count ⟨0, 3, []⟩ 0 0 = none ∧
    (⟨0, 0, []⟩ : Universe).make_glider = none ∧
    (⟨0, 3, []⟩ : Universe).render = none ∧
    (⟨3, 0, []⟩ : Universe).tick = some ⟨3, 0, []⟩ ∧
    (⟨0, 3, []⟩ : Universe).tick = some ⟨0, 3, []⟩ := by
  decide

/-! ### A closed form for `live_neighbor_count` -/

theorem getD_of_getElem {l : List Cell} {n : Nat} {c : Cell} (h : l[n]? = some c) :
    l.getD n Cell.Dead = c := by
  rw [List.getD_eq_getElem?_getD, h]
  rfl

theorem getElem?_eq_getD {l : List Cell} {n : Nat} (h : n < l.length) :
    l[n]? = some (l.getD n Cell.Dead) := by
  rw [List.getD_eq_getElem?_getD, List.getElem?_eq_getElem h]
  rfl

theorem Universe.neighborStep_eq {u : Universe} {row col dr dc : Nat} (count : Nat)
    (hne : ¬(dr = 0 ∧ dc = 0)) (hwf : u.wf) (hh : 1 ≤ u.height) (hw : 1 ≤ u.width)
    (hm : u.width * u.height < U32MOD) :
    u.neighborStep row col count (dr, dc) = some (count + nbrAt u row col dr dc) := by
  have hwfe : u.cells.length = u.width * u.height := hwf
  simp only [Universe.neighborStep]
  rw [if_neg hne, cmod_of_ne (by omega), cmod_of_ne (by omega)]
  simp only [Option.some_bind]
  have hr : (row + dr) % U32MOD % u.height < u.height := Nat.mod_lt _ (by omega)
  have hc : (col + dc) % U32MOD % u.width < u.width := Nat.mod_lt _ (by omega)
  rw [u.get_index_eq hm hr hc]
  have hlt : (row + dr) % U32MOD % u.height * u.width + (col + dc) % U32MOD % u.width
      < u.cells.length := by
    have := rowcol_lt hr hc
    omega
  rw [getElem?_eq_getD hlt]
  simp only [Option.some_bind]
  rfl

theorem Universe.lnc_closed {u : Universe} (hwf : u.wf) (hh : 2 ≤ u.height)
    (hw : 2 ≤ u.width) (hm : u.width * u.height < U32MOD) (row col : Nat) :
    u.live_neighbor_count row col = some
      (nbrAt u row col (u.height - 1) (u.width - 1) + nbrAt u row col (u.height - 1) 0
        + nbrAt u row col (u.height - 1) 1 + nbrAt u row col 0 (u.width - 1)
        + nbrAt u row col 0 1 + nbrAt u row col 1 (u.width - 1) + nbrAt u row col 1 0
        + nbrAt u row col 1 1) := by
  have hHM : u.height < U32MOD := by
    have h2 : 2 * u.height ≤ u.width * u.height := Nat.mul_le_mul_right u.height hw
    omega
  have hWM : u.width < U32MOD := by
    have h2 : 2 * u.width ≤ u.height * u.width := Nat.mul_le_mul_right u.width hh
    have h3 : u.height * u.width = u.width * u.height := Nat.mul_comm _ _
    omega
  have hwdh : wdec u.height = u.height - 1 := wdec_eq (by omega) (by omega)
  have hwdw : wdec u.width = u.width - 1 := wdec_eq (by omega) (by omega)
  have hskip : ∀ c : Nat, u.neighborStep row col c (0, 0) = some c := fun c => by
    simp [Universe.neighborStep]
  unfold Universe.live_neighbor_count Universe.neighborDeltas
  rw [hwdh, hwdw]
  rw [ofoldl_cons, Universe.neighborStep_eq _ (by omega) hwf (by omega) (by omega) hm,
    Option.some_bind]
  rw [ofoldl_cons, Universe.neighborStep_eq _ (by omega) hwf (by omega) (by omega) hm,
    Option.some_bind]
  rw [ofoldl_cons, Universe.neighborStep_eq _ (by omega) hwf (by omega) (by omega) hm,
    Option.some_bind]
  rw [ofoldl_cons, Universe.neighborStep_eq _ (by omega) hwf (by omega) (by omega) hm,
    Option.some_bind]
  rw [ofoldl_cons, hskip, Option.some_bind]
  rw [ofoldl_cons, Universe.neighborStep_eq _ (by omega) hwf (by omega) (by omega) hm,
    Option.some_bind]
  rw [ofoldl_cons, Universe.neighborStep_eq _ (by omega) hwf (by omega) (by omega) hm,
    Option.some_bind]
  rw [ofoldl_cons, Universe.neighborStep_eq _ (by omega) hwf (by omega) (by omega) hm,
    Option.some_bind]
  rw [ofoldl_cons, Universe.neighborStep_eq _ (by omega) hwf (by omega) (by omega) hm,
    Option.some_bind]
  rw [ofoldl_nil, Nat.zero_add]

/-- Claim C7: toroidal wraparound — on every `W × H` grid with `W, H ≥ 2`
(row-major invariant, 32-bit-representable size) whose only live cell is at
`(0, 0)`, `live_neighbor_count` returns at least 1 at the opposite corner
(row `H-1`, column `W-1`) and at the wrap partners (row `0`, column `W-1`)
and (row `H-1`, column `0`): coordinates wrap modulo height/width, so the
origin cell is a neighbor of the far corner and edges. -/
theorem C7_wraparound (u : Universe) (hw : 2 ≤ u.width) (hh : 2 ≤ u.height)
    (hwf : u.cells.length = u.width * u.height) (hm : u.width * u.height < U32MOD)
    (h0 : u.cells[0]? = some Cell.Alive)
    (honly : ∀ k, k < u.cells.length → 0 < k → u.cells[k]? ≠ some Cell.Alive) :
    (∃ n, u.live_neighbor_count (u.height - 1) (u.width - 1) = some n ∧ 1 ≤ n) ∧
    (∃ n, u.live_neighbor_count 0 (u.width - 1) = some n ∧ 1 ≤ n) ∧
    (∃ n, u.live_neighbor_count (u.height - 1) 0 = some n ∧ 1 ≤ n) := by
  have hHM : u.height < U32MOD := by
    have h2 : 2 * u.height ≤ u.width * u.height := Nat.mul_le_mul_right u.height hw
    omega
  have hWM : u.width < U32MOD := by
    have h2 : 2 * u.width ≤ u.height * u.width := Nat.mul_le_mul_right u.width hh
    have h3 : u.height * u.width = u.width * u.height := Nat.mul_comm _ _
    omega
  have hcell0 : u.cells.getD 0 Cell.Dead = Cell.Alive := getD_of_getElem h0
  have eR : (u.height - 1 + 1) % U32MOD % u.height = 0 := by
    have h1 : u.height - 1 + 1 = u.height := by omega
    rw [h1, Nat.mod_eq_of_lt hHM, Nat.mod_self]
  have eC : (u.width - 1 + 1) % U32MOD % u.width = 0 := by
    have h1 : u.width - 1 + 1 = u.width := by omega
    rw [h1, Nat.mod_eq_of_lt hWM, Nat.mod_self]
  refine ⟨⟨_, u.lnc_closed hwf hh hw hm _ _, ?_⟩,
    ⟨_, u.lnc_closed hwf hh hw hm _ _, ?_⟩,
    ⟨_, u.lnc_closed hwf hh hw hm _ _, ?_⟩⟩
  · have t8 : nbrAt u (u.height - 1) (u.width - 1) 1 1 = 1 := by
      unfold nbrAt
      rw [eR, eC]
      simp [h0, Cell.toNat]
    rw [t8]
    omega
  · have t5 : nbrAt u 0 (u.width - 1) 0 1 = 1 := by
      unfold nbrAt
      rw [eC]
      simp [h0, Cell.toNat]
    rw [t5]
    omega
  · have t7 : nbrAt u (u.height - 1) 0 1 0 = 1 := by
      unfold nbrAt
      rw [eR]
      simp [h0, Cell.toNat]
    rw [t7]
    omega

/-- Witness for C7 at the corner-alive 8×8 grid. -/
theorem C7_wraparound_witness :
    (∃ n, cornerAliveGrid.live_neighbor_count (cornerAliveGrid.height - 1)
      (cornerAliveGrid.width - 1) = some n ∧ 1 ≤ n) ∧
    (∃ n, cornerAliveGrid.live_neighbor_count 0 (cornerAliveGrid.width - 1)
      = some n ∧ 1 ≤ n) ∧
    (∃ n, cornerAliveGrid.live_neighbor_count (cornerAliveGrid.height - 1) 0
      = some n ∧ 1 ≤ n) :=
  C7_wraparound cornerAliveGrid (by decide) (by decide) (by decide) (by decide)
    (by decide) (by decide)

/-! ### Wrapped coordinates and the 2×2 block -/

theorem wrapDec {H i : Nat} (hi : i < H) (hM : 2 * H ≤ U32MOD) :
    (i + (H - 1)) % U32MOD % H = if i = 0 then H - 1 else i - 1 := by
  by_cases h0 : i = 0
  · subst h0
    rw [if_pos rfl, Nat.zero_add, Nat.mod_eq_of_lt (show H - 1 < U32MOD by omega),
      Nat.mod_eq_of_lt (show H - 1 < H by omega)]
  · rw [if_neg h0]
    have he : i + (H - 1) = H + (i - 1) := by omega
    rw [he, Nat.mod_eq_of_lt (show H + (i - 1) < U32MOD by omega), Nat.add_mod_left,
      Nat.mod_eq_of_lt (show i - 1 < H by omega)]

theorem wrapZero {H i : Nat} (hi : i < H) (hM : H ≤ U32MOD) :
    (i + 0) % U32MOD % H = i := by
  rw [Nat.add_zero, Nat.mod_eq_of_lt (show i < U32MOD by omega), Nat.mod_eq_of_lt hi]

theorem wrapInc {H i : Nat} (hi : i < H) (hM : H < U32MOD) :
    (i + 1) % U32MOD % H = if i + 1 = H then 0 else i + 1 := by
  by_cases ht : i + 1 = H
  · rw [if_pos ht, ht, Nat.mod_eq_of_lt hM, Nat.mod_self]
  · rw [if_neg ht, Nat.mod_eq_of_lt (show i + 1 < U32MOD by omega),
      Nat.mod_eq_of_lt (show i + 1 < H by omega)]

theorem blockUniverse_width (W H r c : Nat) : (blockUniverse W H r c).width = W := rfl

theorem blockUniverse_height (W H r c : Nat) : (blockUniverse W H r c).height = H := rfl

theorem blockUniverse_cells (W H r c : Nat) :
    (blockUniverse W H r c).cells = blockCells W H r c := rfl

theorem blockCells_length (W H r c : Nat) : (blockCells W H r c).length = W * H := by
  simp [blockCells]

theorem blockCells_getElem {W H r c k : Nat} (hk : k < W * H) :
    (blockCells W H r c)[k]? = some
      (if (k / W = r ∨ k / W = r + 1) ∧ (k % W = c ∨ k % W = c + 1) then Cell.Alive
        else Cell.Dead) := by
  unfold blockCells
  rw [List.getElem?_map, List.getElem?_range hk]
  rfl

theorem blockCells_getD {W H r c ri cj : Nat} (hri : ri < H) (hcj : cj < W) :
    (blockCells W H r c).getD (ri * W + cj) Cell.Dead
      = if (ri = r ∨ ri = r + 1) ∧ (cj = c ∨ cj = c + 1) then Cell.Alive
        else Cell.Dead := by
  have hWpos : 0 < W := by omega
  have hk : ri * W + cj < W * H := rowcol_lt hri hcj
  have hdiv : (ri * W + cj) / W = ri := by
    have he : ri * W + cj = W * ri + cj := by ring
    rw [he, Nat.mul_add_div hWpos, Nat.div_eq_of_lt hcj, Nat.add_zero]
  have hmod : (ri * W + cj) % W = cj := by
    have he : ri * W + cj = W * ri + cj := by ring
    rw [he, Nat.mul_add_mod, Nat.mod_eq_of_lt hcj]
  rw [List.getD_eq_getElem?_getD, blockCells_getElem hk, hdiv, hmod]
  rfl

theorem toNat_ite (p : Prop) [Decidable p] :
    (if p then Cell.Alive else Cell.Dead).toNat = if p then 1 else 0 := by
  split <;> rfl

theorem nbrAt_block {W H r c i j dr dc ri cj : Nat}
    (hrow : (i + dr) % U32MOD % H = ri) (hcol : (j + dc) % U32MOD % W = cj)
    (hri : ri < H) (hcj : cj < W) :
    nbrAt (blockUniverse W H r c) i j dr dc
      = if (ri = r ∨ ri = r + 1) ∧ (cj = c ∨ cj = c + 1) then 1 else 0 := by
  show ((blockCells W H r c).getD
    ((i + dr) % U32MOD % H * W + (j + dc) % U32MOD % W) Cell.Dead).toNat = _
  rw [hrow, hcol, blockCells_getD hri hcj, toNat_ite]

theorem ite_and_mul (p q : Prop) [Decidable p] [Decidable q] :
    (if p ∧ q then (1 : Nat) else 0) = (if p then 1 else 0) * (if q then 1 else 0) := by
  by_cases hp : p <;> by_cases hq : q <;> simp [hp, hq]

theorem rowHits (a1 a2 a3 H r i : Nat) (hH : 4 ≤ H) (hr : r + 1 < H) (hi : i < H)
    (h1 : a1 = if (if i = 0 then H - 1 else i - 1) = r
      ∨ (if i = 0 then H - 1 else i - 1) = r + 1 then 1 else 0)
    (h2 : a2 = if i = r ∨ i = r + 1 then 1 else 0)
    (h3 : a3 = if (if i + 1 = H then 0 else i + 1) = r
      ∨ (if i + 1 = H then 0 else i + 1) = r + 1 then 1 else 0) :
    ((i = r ∨ i = r + 1) ∧ a2 = 1 ∧ a1 + a3 = 1) ∨
    (¬(i = r ∨ i = r + 1) ∧ a2 = 0 ∧ a1 + a3 ≤ 1) := by
  split_ifs at h1 h2 h3 <;>
    first
      | omega
      | (simp_all only [or_false, false_or, or_true, true_or, not_or]; omega)

theorem blockCount (a1 a2 a3 b1 b2 b3 H W r c i j : Nat)
    (hH : 4 ≤ H) (hW : 4 ≤ W) (hr : r + 1 < H) (hc : c + 1 < W)
    (hi : i < H) (hj : j < W)
    (hA1 : a1 = if (if i = 0 then H - 1 else i - 1) = r
      ∨ (if i = 0 then H - 1 else i - 1) = r + 1 then 1 else 0)
    (hA2 : a2 = if i = r ∨ i = r + 1 then 1 else 0)
    (hA3 : a3 = if (if i + 1 = H then 0 else i + 1) = r
      ∨ (if i + 1 = H then 0 else i + 1) = r + 1 then 1 else 0)
    (hB1 : b1 = if (if j = 0 then W - 1 else j - 1) = c
      ∨ (if j = 0 then W - 1 else j - 1) = c + 1 then 1 else 0)
    (hB2 : b2 = if j = c ∨ j = c + 1 then 1 else 0)
    (hB3 : b3 = if (if j + 1 = W then 0 else j + 1) = c
      ∨ (if j + 1 = W then 0 else j + 1) = c + 1 then 1 else 0) :
    (((i = r ∨ i = r + 1) ∧ (j = c ∨ j = c + 1)) →
      a1 * b1 + a1 * b2 + a1 * b3 + a2 * b1 + a2 * b3 + a3 * b1 + a3 * b2 + a3 * b3 = 3) ∧
    (¬((i = r ∨ i = r + 1) ∧ (j = c ∨ j = c + 1)) →
      a1 * b1 + a1 * b2 + a1 * b3 + a2 * b1 + a2 * b3 + a3 * b1 + a3 * b2 + a3 * b3 ≠ 3) := by
  have ha1le : a1 ≤ 1 := by rw [hA1]; split_ifs <;> omega
  have ha3le : a3 ≤ 1 := by rw [hA3]; split_ifs <;> omega
  have hb1le : b1 ≤ 1 := by rw [hB1]; split_ifs <;> omega
  have hb3le : b3 ≤ 1 := by rw [hB3]; split_ifs <;> omega
  have hrow := rowHits a1 a2 a3 H r i hH hr hi hA1 hA2 hA3
  have hcol := rowHits b1 b2 b3 W c j hW hc hj hB1 hB2 hB3
  constructor
  · rintro ⟨hiR, hjC⟩
    rcases hrow with ⟨-, ha2, ha13⟩ | ⟨hiN, -, -⟩
    · rcases hcol with ⟨-, hb2, hb13⟩ | ⟨hjN, -, -⟩
      · subst ha2
        subst hb2
        have hsA : (a1 = 0 ∧ a3 = 1) ∨ (a1 = 1 ∧ a3 = 0) := by omega
        have hsB : (b1 = 0 ∧ b3 = 1) ∨ (b1 = 1 ∧ b3 = 0) := by omega
        rcases hsA with ⟨e1, e3⟩ | ⟨e1, e3⟩ <;> rcases hsB with ⟨f1, f3⟩ | ⟨f1, f3⟩ <;>
          subst e1 <;> subst e3 <;> subst f1 <;> subst f3 <;> norm_num
      · exact absurd hjC hjN
    · exact absurd hiR hiN
  · intro hnot
    rcases hrow with ⟨hiR, ha2, ha13⟩ | ⟨hiN, ha2, ha13⟩ <;>
      rcases hcol with ⟨hjC, hb2, hb13⟩ | ⟨hjN, hb2, hb13⟩
    · exact absurd ⟨hiR, hjC⟩ hnot
    · subst ha2
      subst hb2
      have hsA : (a1 = 0 ∧ a3 = 1) ∨ (a1 = 1 ∧ a3 = 0) := by omega
      rcases hsA with ⟨e1, e3⟩ | ⟨e1, e3⟩ <;> subst e1 <;> subst e3 <;> omega
    · subst ha2
      subst hb2
      have hsA : (a1 = 0 ∧ a3 = 0) ∨ (a1 = 0 ∧ a3 = 1) ∨ (a1 = 1 ∧ a3 = 0) := by omega
      rcases hsA with ⟨e1, e3⟩ | ⟨e1, e3⟩ | ⟨e1, e3⟩ <;> subst e1 <;> subst e3 <;> omega
    · subst ha2
      subst hb2
      have hsA : (a1 = 0 ∧ a3 = 0) ∨ (a1 = 0 ∧ a3 = 1) ∨ (a1 = 1 ∧ a3 = 0) := by omega
      rcases hsA with ⟨e1, e3⟩ | ⟨e1, e3⟩ | ⟨e1, e3⟩ <;> subst e1 <;> subst e3 <;> omega

theorem block_lnc {W H r c : Nat} (hW : 4 ≤ W) (hH : 4 ≤ H) (hr : r + 1 < H)
    (hc : c + 1 < W) (hm : W * H < U32MOD) {i j : Nat} (hi : i < H) (hj : j < W) :
    ∃ n, (blockUniverse W H r c).live_neighbor_count i j = some n ∧
      (((i = r ∨ i = r + 1) ∧ (j = c ∨ j = c + 1)) → n = 3) ∧
      (¬((i = r ∨ i = r + 1) ∧ (j = c ∨ j = c + 1)) → n ≠ 3) := by
  have hwf : (blockUniverse W H r c).wf := by
    show (blockCells W H r c).length = W * H
    exact blockCells_length W H r c
  have hHM2 : 2 * H ≤ U32MOD := by
    have h4 : 4 * H ≤ W * H := Nat.mul_le_mul_right H hW
    omega
  have hWM2 : 2 * W ≤ U32MOD := by
    have h4 : 4 * W ≤ H * W := Nat.mul_le_mul_right W hH
    have he : H * W = W * H := Nat.mul_comm H W
    omega
  have hclosed := Universe.lnc_closed (u := blockUniverse W H r c) hwf
    (show 2 ≤ H by omega) (show 2 ≤ W by omega) (show W * H < U32MOD from hm) i j
  simp only [blockUniverse_width, blockUniverse_height] at hclosed
  have e1 := nbrAt_block (r := r) (c := c) (wrapDec hi hHM2) (wrapDec hj hWM2)
    (by split_ifs <;> omega) (by split_ifs <;> omega)
  have e2 := nbrAt_block (r := r) (c := c) (wrapDec hi hHM2) (wrapZero hj (by omega))
    (by split_ifs <;> omega) hj
  have e3 := nbrAt_block (r := r) (c := c) (wrapDec hi hHM2) (wrapInc hj (by omega))
    (by split_ifs <;> omega) (by split_ifs <;> omega)
  have e4 := nbrAt_block (r := r) (c := c) (wrapZero hi (by omega)) (wrapDec hj hWM2)
    hi (by split_ifs <;> omega)
  have e5 := nbrAt_block (r := r) (c := c) (wrapZero hi (by omega)) (wrapInc hj (by omega))
    hi (by split_ifs <;> omega)
  have e6 := nbrAt_block (r := r) (c := c) (wrapInc hi (by omega)) (wrapDec hj hWM2)
    (by split_ifs <;> omega) (by split_ifs <;> omega)
  have e7 := nbrAt_block (r := r) (c := c) (wrapInc hi (by omega)) (wrapZero hj (by omega))
    (by split_ifs <;> omega) hj
  have e8 := nbrAt_block (r := r) (c := c) (wrapInc hi (by omega)) (wrapInc hj (by omega))
    (by split_ifs <;> omega) (by split_ifs <;> omega)
  rw [e1, e2, e3, e4, e5, e6, e7, e8] at hclosed
  simp only [ite_and_mul] at hclosed
  refine ⟨_, hclosed, ?_, ?_⟩
  · exact (blockCount _ _ _ _ _ _ H W r c i j hH hW hr hc hi hj
      rfl rfl rfl rfl rfl rfl).1
  · exact (blockCount _ _ _ _ _ _ H W r c i j hH hW hr hc hi hj
      rfl rfl rfl rfl rfl rfl).2

theorem next_cell_dead {n : Nat} (h : n ≠ 3) : next_cell Cell.Dead n = Cell.Dead := by
  simp [next_cell, h]

/-- Claim C8: still-life stability — on every grid with `width ≥ 4` and
`height ≥ 4` (32-bit-representable size) holding a 2×2 block of live cells at
rows `r, r+1` and columns `c, c+1` (in bounds) with every other cell `Dead`,
the grid is a fixed point of `tick()`: the post-tick state equals the
pre-tick state. -/
theorem C8_block_still_life (W H r c : Nat) (hW : 4 ≤ W) (hH : 4 ≤ H)
    (hr : r + 1 < H) (hc : c + 1 < W) (hm : W * H < U32MOD) :
    (blockUniverse W H r c).tick = some (blockUniverse W H r c) := by
  have hwf : (blockUniverse W H r c).wf := by
    show (blockCells W H r c).length = W * H
    exact blockCells_length W H r c
  obtain ⟨res, hres, hlen, hdone, -⟩ :=
    (blockUniverse W H r c).tick_outer hwf (show W * H < U32MOD from hm)
      (show 1 ≤ H by omega) (show 1 ≤ W by omega)
      (blockUniverse W H r c).height (le_refl _)
  have htick : (blockUniverse W H r c).tick
      = some { blockUniverse W H r c with cells := res } := by
    unfold Universe.tick
    rw [hres]
    rfl
  have hcells : res = blockCells W H r c := by
    refine List.ext_getElem? fun k => ?_
    by_cases hk : k < W * H
    · have hWpos : 0 < W := by omega
      have hrow : k / W < H := by
        rw [Nat.div_lt_iff_lt_mul hWpos]
        have he : W * H = H * W := Nat.mul_comm W H
        omega
      have hcol : k % W < W := Nat.mod_lt _ hWpos
      have hk2 : k / W * W + k % W = k := by
        have h1 := Nat.div_add_mod k W
        have h2 : k / W * W = W * (k / W) := Nat.mul_comm _ _
        omega
      obtain ⟨cell, n, hcell, hn, hresk⟩ := hdone (k / W) (k % W) hrow hcol
      simp only [blockUniverse_width, blockUniverse_cells] at hcell hresk
      rw [hk2] at hcell hresk
      obtain ⟨n2, hn2, hblk3, hblkne⟩ := block_lnc hW hH hr hc hm hrow hcol
      have hnn : n = n2 := by
        have h12 := hn.symm.trans hn2
        injection h12
      have hcellv := blockCells_getElem (W := W) (H := H) (r := r) (c := c) hk
      rw [hcellv] at hcell
      have hcelle : cell = if (k / W = r ∨ k / W = r + 1) ∧ (k % W = c ∨ k % W = c + 1)
          then Cell.Alive else Cell.Dead := by
        injection hcell.symm
      rw [hresk, hcellv]
      by_cases hb : (k / W = r ∨ k / W = r + 1) ∧ (k % W = c ∨ k % W = c + 1)
      · rw [if_pos hb]
        rw [if_pos hb] at hcelle
        subst hcelle
        rw [hnn, hblk3 hb]
        rfl
      · rw [if_neg hb]
        rw [if_neg hb] at hcelle
        subst hcelle
        rw [hnn, next_cell_dead (hblkne hb)]
    · rw [List.getElem?_eq_none (by rw [hlen, blockUniverse_cells, blockCells_length]; omega),
        List.getElem?_eq_none (by rw [blockCells_length]; omega)]
  rw [hcells] at htick
  exact htick

/-- Witness for C8: the 2×2 block at the origin of a 4×4 grid. -/
theorem C8_block_still_life_witness :
    (blockUniverse 4 4 0 0).tick = some (blockUniverse 4 4 0 0) :=
  C8_block_still_life 4 4 0 0 (by decide) (by decide) (by decide) (by decide) (by decide)
